import Mathlib

/-!
Shallow embedding of `src/IntervalQueue.js` (the IntervalQueue class).

The class is a single-threaded cooperative scheduler.  We model it as an
explicit state machine: the mutable fields of the class become fields of
`St`, caller-supplied functions become an environment `Nat → FnBeh` mapping
opaque function identifiers to their observable behaviour (synchronous
return, synchronous throw, or returning a promise), and the asynchronous
parts of the runtime (timer callbacks, promise settlement and the microtask
callbacks attached to promises) become explicit events.  Ghost fields
(`dispatched`, `handleLog`, `externalHandles`, `uncaught`, `typeErrors`)
record the observable history without influencing control flow.
-/

namespace IntervalQueue

/-- Value of the `startTimer` option ('before' | 'after'). -/
inductive StartTimer where
  | before
  | after
deriving DecidableEq

/-- The options object built in the constructor (lines 60-65 of the source). -/
structure Options where
  awaitLastQueue : Bool
  startTimer : StartTimer
  loop : Bool
  timerForFirst : Bool
deriving DecidableEq

/-- Observable behaviour of a caller-supplied function: it either returns a
plain value, throws synchronously, or returns the promise with the given
identifier.  Values and errors are coded as naturals since they are opaque
to the scheduler. -/
inductive FnBeh where
  | ret (v : Nat)
  | throwE (e : Nat)
  | retPromise (p : Nat)
deriving DecidableEq

/-- A JavaScript value as far as `lastFnResult` is concerned: `null`, a
non-promise value, or a promise (what `instanceof Promise` distinguishes). -/
inductive JsVal where
  | null
  | plain (v : Nat)
  | prom (p : Nat)
deriving DecidableEq

/-- Outcome of a settled promise. -/
inductive POut where
  | resolvedP (v : Nat)
  | rejectedP (e : Nat)
deriving DecidableEq

/-- A settle event on a completion handle (the promise returned by `add`). -/
inductive HRes where
  | fulfilled (v : Nat)
  | failedH (e : Nat)
deriving DecidableEq

/-- A callback attached to a promise, run when the promise settles:
`settleHandle h` is the `.then(x => promise.resolve(x)).catch(e => promise.reject(e))`
pair of line 134, `armTimer` is the `.finally(() => this._createTimeout())`
of line 140, and `resumeTrigger` is the continuation of the
`await this.lastFnResult.catch(() => {})` on line 123 (the remainder of the
`trigger` body, lines 125-143). -/
inductive Reaction where
  | settleHandle (h : Nat)
  | armTimer
  | resumeTrigger
deriving DecidableEq

/-- The instance state of `IntervalQueue`, plus ghost history fields.
`queue`, `returnPromises`, `lastFnResult`, `options`, `isFirst`, `paused`,
`isTriggering`, `intervalTime` and `currentTimeout` mirror the class fields.
`timers` is the set (as a list) of armed, not-yet-fired, not-cancelled
timeouts; `currentTimeout` keeps the identifier stored in `_currentTimeout`
(which the source never nulls out, so it may go stale).  `reactions` are the
promise callbacks not yet run, `promOut` the promises that have settled.
Ghost fields: `handleLog` records every settle of a completion handle,
`externalHandles` the handles handed back to callers of the public `add`,
`dispatched` the invocations of queued functions (function, args, paired
handle) in order, `uncaught` the synchronous throws that escape the async
`trigger` body, and `typeErrors` counts crashes from shifting an empty
queue.  `nextHandle` / `nextTimer` are the id supplies. -/
structure St where
  intervalTime : Nat
  isTriggering : Bool
  queue : List (Nat × List Nat)
  returnPromises : List Nat
  lastFnResult : JsVal
  options : Options
  isFirst : Bool
  paused : Bool
  currentTimeout : Option Nat
  timers : List Nat
  reactions : List (Nat × Reaction)
  promOut : List (Nat × POut)
  handleLog : List (Nat × HRes)
  externalHandles : List Nat
  dispatched : List (Nat × List Nat × Nat)
  uncaught : List Nat
  typeErrors : Nat
  nextHandle : Nat
  nextTimer : Nat
deriving DecidableEq

/-- The options defaulting of the constructor (lines 60-65). -/
def defaultOptions : Options :=
  { awaitLastQueue := true, startTimer := StartTimer.before,
    loop := false, timerForFirst := false }

/-- The constructor (lines 25-86): fresh state for a given interval and
options. -/
def mkQueue (intervalTime : Nat) (opts : Options) : St :=
  { intervalTime := intervalTime, isTriggering := false, queue := [],
    returnPromises := [], lastFnResult := JsVal.null, options := opts,
    isFirst := true, paused := false, currentTimeout := none, timers := [],
    reactions := [], promOut := [], handleLog := [], externalHandles := [],
    dispatched := [], uncaught := [], typeErrors := 0, nextHandle := 0,
    nextTimer := 0 }

/-- Lines 94-96 of `add`: push the entry on `queue` and a fresh completion
handle (id `s.nextHandle`) on `returnPromises`. -/
def addCore (fn : Nat) (args : List Nat) (s : St) : St :=
  { s with queue := s.queue ++ [(fn, args)],
           returnPromises := s.returnPromises ++ [s.nextHandle],
           nextHandle := s.nextHandle + 1 }

/-- `_createTimeout` (lines 151-158): set `isFirst := false` and arm a fresh
timeout, overwriting `_currentTimeout` without cancelling a previously armed
timer. -/
def createTimeout (s : St) : St :=
  { s with isFirst := false, currentTimeout := some s.nextTimer,
           timers := s.timers ++ [s.nextTimer], nextTimer := s.nextTimer + 1 }

/-- Attach a callback to promise `p` (a `.then` / `.catch` / `.finally`
registration, or the suspension of an `await`). -/
def attachReaction (p : Nat) (r : Reaction) (s : St) : St :=
  { s with reactions := s.reactions ++ [(p, r)] }

/-- The test on line 122:
`this.options.awaitLastQueue && this.lastFnResult instanceof Promise`,
returning the promise to be awaited when the test holds. -/
def awaitGate (s : St) : Option Nat :=
  if s.options.awaitLastQueue then
    match s.lastFnResult with
    | JsVal.prom p => some p
    | _ => none
  else none

/-- Lines 131-143 of `trigger`: invoke the dequeued function and finish the
round.  `hOpt` is the completion handle shifted on line 126.  A plain return
settles the handle at once (line 136) and arms the timer (line 142); a
returned promise gets the handle-settling callbacks (line 134) and, under
`startTimer = 'after'`, the deferred timer arming (line 140), otherwise the
timer is armed at once (line 142).  A synchronous throw escapes the async
`trigger` body: nothing after line 131 runs, so the handle is not settled,
no timer is armed, and `isTriggering` is left `true`; the error only feeds
the unobserved promise returned by `trigger` itself (ghost `uncaught`). -/
def invokeAndFinish (env : Nat → FnBeh) (fn : Nat) (args : List Nat)
    (hOpt : Option Nat) (s : St) : St :=
  let s3 : St := { s with dispatched := s.dispatched ++ [(fn, args, hOpt.getD 0)] }
  match env fn with
  | FnBeh.throwE e => { s3 with uncaught := s3.uncaught ++ [e] }
  | FnBeh.ret v =>
      let s4 : St := { s3 with lastFnResult := JsVal.plain v }
      match hOpt with
      | none => { s4 with typeErrors := s4.typeErrors + 1 }
      | some h =>
          createTimeout { s4 with handleLog := s4.handleLog ++ [(h, HRes.fulfilled v)] }
  | FnBeh.retPromise p =>
      let s4 : St := { s3 with lastFnResult := JsVal.prom p }
      match hOpt with
      | none => { s4 with typeErrors := s4.typeErrors + 1 }
      | some h =>
          let s5 : St := attachReaction p (Reaction.settleHandle h) s4
          match s5.options.startTimer with
          | StartTimer.after => attachReaction p Reaction.armTimer s5
          | StartTimer.before => createTimeout s5

/-- Lines 125-129 of `trigger`: shift the head entry and the head completion
handle, then, when the `loop` option is set, re-add the same function and
arguments through `this.add` (whose nested `trigger` call is supplied as
`reAdd`, see `triggerRestWith`). -/
def shiftAndLoopWith (reAdd : Nat → List Nat → St → St) (s : St) : St :=
  match s.queue with
  | [] => s
  | (fn, args) :: qrest =>
      let s1 : St := { s with queue := qrest,
                              returnPromises := s.returnPromises.tail }
      if s1.options.loop then reAdd fn args s1 else s1

/-- Lines 125-143 of `trigger` (the part after the `await`).  On an empty
queue `queue.shift()` yields `undefined` and `queued[0]` throws a TypeError
(only reachable if the queue was emptied while the round was suspended);
otherwise dequeue, optionally loop-requeue, and invoke. -/
def triggerRestWith (env : Nat → FnBeh) (reAdd : Nat → List Nat → St → St)
    (s : St) : St :=
  match s.queue with
  | [] => { s with typeErrors := s.typeErrors + 1 }
  | (fn, args) :: _ =>
      invokeAndFinish env fn args s.returnPromises.head? (shiftAndLoopWith reAdd s)

/-- The body of `trigger` (lines 114-143), parameterised by the `this.add`
call made on line 129 when `loop` is set.  Guards: `paused` (line 115),
`isTriggering` (line 116), empty queue (line 117, setting `isFirst`).  Then
`isTriggering := true` (line 119), the `timerForFirst` first-round timer
(line 120), and the `awaitLastQueue` suspension (lines 122-123), which
registers the rest of the body as a callback on the awaited promise. -/
def triggerBody (env : Nat → FnBeh) (reAdd : Nat → List Nat → St → St)
    (s : St) : St :=
  if s.paused then s
  else if s.isTriggering then s
  else if s.queue.length == 0 then { s with isFirst := true }
  else
    let s1 : St := { s with isTriggering := true }
    if s1.options.timerForFirst && s1.isFirst then createTimeout s1
    else
      match awaitGate s1 with
      | some p => attachReaction p Reaction.resumeTrigger s1
      | none => triggerRestWith env reAdd s1

/-- `trigger` with a fuel bound on the nesting of the re-entrant `this.add`
call of line 129.  A nested call at depth two always finds
`isTriggering = true` (the dispatching round set it on line 119 and nothing
on the synchronous path clears it) and returns at the line 116 guard, which
is also what the fuel-0 case returns, so fuel 2 realises the exact
semantics (see `triggerF_of_isTriggering`). -/
def triggerF (env : Nat → FnBeh) : Nat → St → St
  | 0, s => s
  | fuel + 1, s =>
      triggerBody env (fun fn args st => triggerF env fuel (addCore fn args st)) s

/-- `trigger` (lines 114-143). -/
def trigger (env : Nat → FnBeh) (s : St) : St :=
  triggerF env 2 s

/-- `add` (lines 93-99): push entry and handle, then call `trigger`.  The
created handle (id `s.nextHandle`) is the function's return value. -/
def add (env : Nat → FnBeh) (fn : Nat) (args : List Nat) (s : St) : St :=
  trigger env (addCore fn args s)

/-- The suspended remainder of a `trigger` round (lines 125-143), as resumed
by the `resumeTrigger` reaction; its line 129 re-add is the full `this.add`. -/
def triggerRest (env : Nat → FnBeh) (s : St) : St :=
  triggerRestWith env (fun fn args st => add env fn args st) s

/-- Lines 125-129 with the full `this.add` as the loop re-add. -/
def shiftAndLoop (env : Nat → FnBeh) (s : St) : St :=
  shiftAndLoopWith (fun fn args st => add env fn args st) s

/-- `clearLoop` (lines 180-183): `clearTimeout(this._currentTimeout)` cancels
the timer whose id is stored in `_currentTimeout` (if it is still armed) and
clears `isTriggering`.  The `_currentTimeout` field itself is not modified. -/
def clearLoop (s : St) : St :=
  { s with timers := match s.currentTimeout with
                     | some t => s.timers.filter (fun x => x != t)
                     | none => s.timers,
           isTriggering := false }

/-- `runNext` (lines 188-191): `clearLoop` then `trigger`. -/
def runNext (env : Nat → FnBeh) (s : St) : St :=
  trigger env (clearLoop s)

/-- The specification's description of `runNext`: a `clearLoop()` call
followed immediately by a trigger-round attempt. -/
def runNextSpec (env : Nat → FnBeh) (s : St) : St :=
  trigger env (clearLoop s)

/-- `pause` (lines 196-200): set `paused`, force `isFirst`, `clearLoop`. -/
def pauseOp (s : St) : St :=
  clearLoop { s with paused := true, isFirst := true }

/-- `unpause` (lines 205-208): clear `paused` and call `trigger`. -/
def unpauseOp (env : Nat → FnBeh) (s : St) : St :=
  trigger env { s with paused := false }

/-- `setIntervalTime` (lines 105-108): set the interval, then `runNext`. -/
def setIntervalTimeOp (env : Nat → FnBeh) (t : Nat) (s : St) : St :=
  runNext env { s with intervalTime := t }

/-- A promise settles (at most once); its callbacks run later, as separate
`deliver` events. -/
def promSettle (p : Nat) (out : POut) (s : St) : St :=
  match s.promOut.lookup p with
  | some _ => s
  | none => { s with promOut := s.promOut ++ [(p, out)] }

/-- Run one promise callback with the promise's outcome.  `settleHandle`
settles the completion handle accordingly (line 134); `armTimer` runs
`_createTimeout` whatever the outcome (`.finally`, line 140);
`resumeTrigger` resumes the suspended round (the `await` of line 123 was on
`lastFnResult.catch(() => {})`, so it resumes on rejection too, ignoring the
outcome). -/
def runReaction (env : Nat → FnBeh) (out : POut) (s : St) : Reaction → St
  | Reaction.settleHandle h =>
      { s with handleLog := s.handleLog ++
          [(h, match out with
               | POut.resolvedP v => HRes.fulfilled v
               | POut.rejectedP e => HRes.failedH e)] }
  | Reaction.armTimer => createTimeout s
  | Reaction.resumeTrigger => triggerRest env s

/-- Deliver the pending callbacks of a settled promise, in attachment order.
Callbacks attached during delivery (by a resumed round) stay pending. -/
def deliver (env : Nat → FnBeh) (p : Nat) (s : St) : St :=
  match s.promOut.lookup p with
  | none => s
  | some out =>
      let todo := (s.reactions.filter (fun r => r.1 == p)).map (fun r => r.2)
      todo.foldl (fun st r => runReaction env out st r)
        { s with reactions := s.reactions.filter (fun r => r.1 != p) }

/-- A timeout armed by `_createTimeout` fires: the callback of lines 153-156
clears `isTriggering` and re-enters `trigger`.  Cancelled or already-fired
timers do nothing. -/
def timerFire (env : Nat → FnBeh) (tid : Nat) (s : St) : St :=
  if tid ∈ s.timers then
    trigger env { s with timers := s.timers.filter (fun x => x != tid),
                         isTriggering := false }
  else s

/-- External events driving the scheduler: the public API calls, a timer
firing, a promise settling, and the delivery of a settled promise's
callbacks. -/
inductive Ev where
  | add (fn : Nat) (args : List Nat)
  | setIntervalTime (t : Nat)
  | clearLoop
  | runNext
  | pause
  | unpause
  | timerFire (tid : Nat)
  | promSettle (p : Nat) (out : POut)
  | deliver (p : Nat)
deriving DecidableEq

/-- One event step.  The public `add` additionally records (ghost)
the handle it returns to the caller. -/
def step (env : Nat → FnBeh) (s : St) : Ev → St
  | Ev.add fn args =>
      add env fn args { s with externalHandles := s.externalHandles ++ [s.nextHandle] }
  | Ev.setIntervalTime t => setIntervalTimeOp env t s
  | Ev.clearLoop => clearLoop s
  | Ev.runNext => runNext env s
  | Ev.pause => pauseOp s
  | Ev.unpause => unpauseOp env s
  | Ev.timerFire tid => timerFire env tid s
  | Ev.promSettle p out => promSettle p out s
  | Ev.deliver p => deliver env p s

/-- Run a list of events from a state. -/
def run (env : Nat → FnBeh) (s : St) (es : List Ev) : St :=
  es.foldl (step env) s

/-! ### Concrete environments used in the evaluations below -/

/-- Function 0 returns the promise with id 0, every other function returns
the plain value 1. -/
def envA : Nat → FnBeh := fun n =>
  if n == 0 then FnBeh.retPromise 0 else FnBeh.ret 1

/-- Function 0 throws synchronously (error code 9), every other function
returns the plain value 1. -/
def envThrow : Nat → FnBeh := fun n =>
  if n == 0 then FnBeh.throwE 9 else FnBeh.ret 1

/-! ### Helper lemmas -/

/-- A `trigger` call on a state whose `isTriggering` flag is set returns at
the line 116 guard, leaving the state unchanged (at every fuel). -/
theorem triggerF_of_isTriggering (env : Nat → FnBeh) (fuel : Nat) (s : St)
    (h : s.isTriggering = true) : triggerF env fuel s = s := by
  cases fuel with
  | zero => rfl
  | succ n => simp [triggerF, triggerBody, h]

/-- A `trigger` call on a paused state returns at the line 115 guard. -/
theorem triggerF_of_paused (env : Nat → FnBeh) (fuel : Nat) (s : St)
    (h : s.paused = true) : triggerF env fuel s = s := by
  cases fuel with
  | zero => rfl
  | succ n => simp [triggerF, triggerBody, h]

/-- The nested `this.add` of line 129 is a bare enqueue whenever the round
set `isTriggering` and it was not cleared: its `trigger` call returns at
the guard. -/
theorem add_of_isTriggering (env : Nat → FnBeh) (fn : Nat) (args : List Nat)
    (s : St) (h : s.isTriggering = true) :
    add env fn args s = addCore fn args s := by
  unfold add trigger
  exact triggerF_of_isTriggering env 2 (addCore fn args s) h

/-- Lines 131-143 never touch the queue, the handle sequence, the handle id
supply or the caller-visible handle list, and they record exactly one
dispatch. -/
theorem invokeAndFinish_frame (env : Nat → FnBeh) (fn : Nat) (args : List Nat)
    (hOpt : Option Nat) (s : St) :
    (invokeAndFinish env fn args hOpt s).queue = s.queue ∧
    (invokeAndFinish env fn args hOpt s).returnPromises = s.returnPromises ∧
    (invokeAndFinish env fn args hOpt s).externalHandles = s.externalHandles ∧
    (invokeAndFinish env fn args hOpt s).nextHandle = s.nextHandle ∧
    (invokeAndFinish env fn args hOpt s).dispatched
      = s.dispatched ++ [(fn, args, hOpt.getD 0)] := by
  unfold invokeAndFinish
  cases env fn <;> cases hOpt <;>
    simp [createTimeout, attachReaction] <;>
    (cases s.options.startTimer <;> simp [createTimeout, attachReaction])

/-- Claim C8: `clearLoop` sets `isTriggering` to `false`, cancels the timer
whose id is stored in `_currentTimeout` (when one is armed), and changes
nothing else: `isFirst`, `paused`, the interval, the queue, the
completion-handle sequence, and all other state are left unchanged. -/
theorem c8_clearLoop_frame (s : St) :
    (clearLoop s).isTriggering = false ∧
    (clearLoop s).timers = (match s.currentTimeout with
                            | some t => s.timers.filter (fun x => x != t)
                            | none => s.timers) ∧
    (clearLoop s).currentTimeout = s.currentTimeout ∧
    (clearLoop s).isFirst = s.isFirst ∧
    (clearLoop s).paused = s.paused ∧
    (clearLoop s).intervalTime = s.intervalTime ∧
    (clearLoop s).queue = s.queue ∧
    (clearLoop s).returnPromises = s.returnPromises ∧
    (clearLoop s).lastFnResult = s.lastFnResult ∧
    (clearLoop s).options = s.options ∧
    (clearLoop s).reactions = s.reactions ∧
    (clearLoop s).promOut = s.promOut ∧
    (clearLoop s).handleLog = s.handleLog ∧
    (clearLoop s).externalHandles = s.externalHandles ∧
    (clearLoop s).dispatched = s.dispatched :=
  ⟨rfl, rfl, rfl, rfl, rfl, rfl, rfl, rfl, rfl, rfl, rfl, rfl, rfl, rfl, rfl⟩

/-- Projection form of `invokeAndFinish_frame`, for rewriting. -/
theorem invokeAndFinish_queue (env : Nat → FnBeh) (fn : Nat) (args : List Nat)
    (hOpt : Option Nat) (s : St) :
    (invokeAndFinish env fn args hOpt s).queue = s.queue :=
  (invokeAndFinish_frame env fn args hOpt s).1

/-- Projection form of `invokeAndFinish_frame`, for rewriting. -/
theorem invokeAndFinish_returnPromises (env : Nat → FnBeh) (fn : Nat)
    (args : List Nat) (hOpt : Option Nat) (s : St) :
    (invokeAndFinish env fn args hOpt s).returnPromises = s.returnPromises :=
  (invokeAndFinish_frame env fn args hOpt s).2.1

/-- Projection form of `invokeAndFinish_frame`, for rewriting. -/
theorem invokeAndFinish_externalHandles (env : Nat → FnBeh) (fn : Nat)
    (args : List Nat) (hOpt : Option Nat) (s : St) :
    (invokeAndFinish env fn args hOpt s).externalHandles = s.externalHandles :=
  (invokeAndFinish_frame env fn args hOpt s).2.2.1

/-- Projection form of `invokeAndFinish_frame`, for rewriting. -/
theorem invokeAndFinish_nextHandle (env : Nat → FnBeh) (fn : Nat)
    (args : List Nat) (hOpt : Option Nat) (s : St) :
    (invokeAndFinish env fn args hOpt s).nextHandle = s.nextHandle :=
  (invokeAndFinish_frame env fn args hOpt s).2.2.2.1

/-- Projection form of `invokeAndFinish_frame`, for rewriting. -/
theorem invokeAndFinish_dispatched (env : Nat → FnBeh) (fn : Nat)
    (args : List Nat) (hOpt : Option Nat) (s : St) :
    (invokeAndFinish env fn args hOpt s).dispatched
      = s.dispatched ++ [(fn, args, hOpt.getD 0)] :=
  (invokeAndFinish_frame env fn args hOpt s).2.2.2.2

/-- Lines 125-129 on a non-empty queue, for a re-add that reduces to a bare
enqueue (which it does whenever `isTriggering` is still set): shift both
heads, and when `loop` is set re-append the entry with a fresh handle. -/
theorem shiftAndLoopWith_eq (reAdd : Nat → List Nat → St → St) (s : St)
    (fn : Nat) (args : List Nat) (qrest : List (Nat × List Nat))
    (hre : ∀ g as st, st.isTriggering = true → reAdd g as st = addCore g as st)
    (ht : s.isTriggering = true)
    (hq : s.queue = (fn, args) :: qrest) :
    shiftAndLoopWith reAdd s =
      (if s.options.loop then
        addCore fn args { s with queue := qrest,
                                 returnPromises := s.returnPromises.tail }
       else { s with queue := qrest,
                     returnPromises := s.returnPromises.tail }) := by
  unfold shiftAndLoopWith
  rw [hq]
  by_cases hl : s.options.loop
  · simp only [hl, if_true]
    exact hre fn args _ ht
  · simp [hl]

/-- The dispatch equations for the resumed part of a round (lines 125-143)
on a non-`cleared` round: the head entry is dispatched paired with the head
completion handle, both heads are removed, and under `loop` the same entry
and a fresh handle are appended at the tail. -/
theorem triggerRestWith_eqs (env : Nat → FnBeh) (reAdd : Nat → List Nat → St → St)
    (s : St) (fn : Nat) (args : List Nat) (h : Nat)
    (qrest : List (Nat × List Nat)) (hrest : List Nat)
    (hre : ∀ g as st, st.isTriggering = true → reAdd g as st = addCore g as st)
    (ht : s.isTriggering = true)
    (hq : s.queue = (fn, args) :: qrest)
    (hr : s.returnPromises = h :: hrest) :
    (triggerRestWith env reAdd s).dispatched = s.dispatched ++ [(fn, args, h)] ∧
    (triggerRestWith env reAdd s).queue
      = qrest ++ (if s.options.loop then [(fn, args)] else []) ∧
    (triggerRestWith env reAdd s).returnPromises
      = hrest ++ (if s.options.loop then [s.nextHandle] else []) ∧
    (triggerRestWith env reAdd s).externalHandles = s.externalHandles ∧
    (triggerRestWith env reAdd s).nextHandle
      = (if s.options.loop then s.nextHandle + 1 else s.nextHandle) := by
  have hshift := shiftAndLoopWith_eq reAdd s fn args qrest hre ht hq
  have hrest_eq : s.returnPromises.tail = hrest := by rw [hr]; rfl
  have hhead : s.returnPromises.head? = some h := by rw [hr]; rfl
  unfold triggerRestWith
  rw [hq]
  simp only [hhead]
  rw [hshift]
  by_cases hl : s.options.loop
  · refine ⟨?_, ?_, ?_, ?_, ?_⟩ <;>
      simp [hl, invokeAndFinish_queue, invokeAndFinish_returnPromises,
            invokeAndFinish_externalHandles, invokeAndFinish_nextHandle,
            invokeAndFinish_dispatched, addCore, hrest_eq]
  · refine ⟨?_, ?_, ?_, ?_, ?_⟩ <;>
      simp [hl, invokeAndFinish_queue, invokeAndFinish_returnPromises,
            invokeAndFinish_externalHandles, invokeAndFinish_nextHandle,
            invokeAndFinish_dispatched, hrest_eq]

/-! ### Claim theorems -/

/-- Claim C1 (code bug evidence).  On a default scheduler, a single `add` of
a synchronously-throwing function leaves the returned completion handle
unsettled forever: the throw escapes the async `trigger` body (ghost
`uncaught`), `handleLog` is empty, and the state is wedged — `isTriggering`
is stuck `true`, no timer is armed and no promise callback is pending, so no
future event can ever settle handle 0.  The claim (and the spec) say the
handle must fail with the thrown error. -/
theorem c1_sync_throw_handle_never_settles :
    (run envThrow (mkQueue 2000 defaultOptions) [Ev.add 0 []]).externalHandles = [0] ∧
    (run envThrow (mkQueue 2000 defaultOptions) [Ev.add 0 []]).handleLog = [] ∧
    (run envThrow (mkQueue 2000 defaultOptions) [Ev.add 0 []]).uncaught = [9] ∧
    (run envThrow (mkQueue 2000 defaultOptions) [Ev.add 0 []]).isTriggering = true ∧
    (run envThrow (mkQueue 2000 defaultOptions) [Ev.add 0 []]).timers = [] ∧
    (run envThrow (mkQueue 2000 defaultOptions) [Ev.add 0 []]).reactions = [] := by
  decide

/-- Claim C2 (code bug evidence).  After function 0 throws synchronously,
the round is aborted rather than completed: no timer is armed,
`isTriggering` is stuck `true`, and the sibling entry added afterwards sits
in the queue with no armed timer and no pending callback to ever dispatch
it.  The claim says the round completes normally and siblings dispatch
unaffected. -/
theorem c2_sync_throw_blocks_siblings :
    (run envThrow (mkQueue 2000 defaultOptions) [Ev.add 0 [], Ev.add 1 []]).dispatched
        = [(0, [], 0)] ∧
    (run envThrow (mkQueue 2000 defaultOptions) [Ev.add 0 [], Ev.add 1 []]).queue
        = [(1, [])] ∧
    (run envThrow (mkQueue 2000 defaultOptions) [Ev.add 0 [], Ev.add 1 []]).isTriggering
        = true ∧
    (run envThrow (mkQueue 2000 defaultOptions) [Ev.add 0 [], Ev.add 1 []]).timers = [] ∧
    (run envThrow (mkQueue 2000 defaultOptions) [Ev.add 0 [], Ev.add 1 []]).reactions
        = [] := by
  decide

/-- Claim C3 counterexample.  Reach a state that is idle (empty queue, empty
handle list, no round in progress, no armed timer), not paused, with
`timerForFirst` disabled — yet the next `add` does not run its function
within the `add` call: `lastFnResult` is still an unsettled promise and
`awaitLastQueue` holds, so the round suspends instead of dispatching. -/
theorem c3_counterexample :
    (run envA (mkQueue 2000 defaultOptions) [Ev.add 0 [], Ev.timerFire 0]).queue = [] ∧
    (run envA (mkQueue 2000 defaultOptions) [Ev.add 0 [], Ev.timerFire 0]).isTriggering
        = false ∧
    (run envA (mkQueue 2000 defaultOptions) [Ev.add 0 [], Ev.timerFire 0]).paused
        = false ∧
    (run envA (mkQueue 2000 defaultOptions)
        [Ev.add 0 [], Ev.timerFire 0]).options.timerForFirst = false ∧
    (run envA (mkQueue 2000 defaultOptions) [Ev.add 0 [], Ev.timerFire 0]).timers = [] ∧
    (step envA (run envA (mkQueue 2000 defaultOptions) [Ev.add 0 [], Ev.timerFire 0])
        (Ev.add 1 [])).dispatched
      = (run envA (mkQueue 2000 defaultOptions) [Ev.add 0 [], Ev.timerFire 0]).dispatched
      := by
  decide

/-- Claim C4 counterexample.  A round suspended on `awaitLastQueue` when
`pause()` is called resumes when the awaited promise settles: the queued
entry is dispatched while `paused = true` (no `unpause` occurs in the
trace), a timer is armed while paused, and `isFirst` is reset to `false`. -/
theorem c4_counterexample :
    (run envA (mkQueue 2000 defaultOptions)
        [Ev.add 0 [], Ev.add 1 [], Ev.timerFire 0, Ev.pause]).paused = true ∧
    (run envA (mkQueue 2000 defaultOptions)
        [Ev.add 0 [], Ev.add 1 [], Ev.timerFire 0, Ev.pause]).dispatched
        = [(0, [], 0)] ∧
    (run envA (mkQueue 2000 defaultOptions)
        [Ev.add 0 [], Ev.add 1 [], Ev.timerFire 0, Ev.pause,
         Ev.promSettle 0 (POut.resolvedP 7), Ev.deliver 0]).paused = true ∧
    (run envA (mkQueue 2000 defaultOptions)
        [Ev.add 0 [], Ev.add 1 [], Ev.timerFire 0, Ev.pause,
         Ev.promSettle 0 (POut.resolvedP 7), Ev.deliver 0]).isFirst = false ∧
    (run envA (mkQueue 2000 defaultOptions)
        [Ev.add 0 [], Ev.add 1 [], Ev.timerFire 0, Ev.pause,
         Ev.promSettle 0 (POut.resolvedP 7), Ev.deliver 0]).timers = [1] ∧
    (run envA (mkQueue 2000 defaultOptions)
        [Ev.add 0 [], Ev.add 1 [], Ev.timerFire 0, Ev.pause,
         Ev.promSettle 0 (POut.resolvedP 7), Ev.deliver 0]).dispatched
        = [(0, [], 0), (1, [], 1)] := by
  decide

/-- Claim C7 counterexample.  A state where the three gates named by the
claim all pass (not paused, non-empty queue, `timerForFirst` disabled) but
`runNext` does not dispatch the next queued entry: the round suspends on the
still-unsettled `lastFnResult` because `awaitLastQueue` is enabled. -/
theorem c7_counterexample :
    (run envA (mkQueue 2000 defaultOptions) [Ev.add 0 [], Ev.add 1 []]).paused
        = false ∧
    (run envA (mkQueue 2000 defaultOptions) [Ev.add 0 [], Ev.add 1 []]).queue
        = [(1, [])] ∧
    (run envA (mkQueue 2000 defaultOptions)
        [Ev.add 0 [], Ev.add 1 []]).options.timerForFirst = false ∧
    (runNext envA (run envA (mkQueue 2000 defaultOptions)
        [Ev.add 0 [], Ev.add 1 []])).dispatched
      = (run envA (mkQueue 2000 defaultOptions) [Ev.add 0 [], Ev.add 1 []]).dispatched
      := by
  decide

/-- A full `trigger` round that passes every gate (not paused, no round in
progress, non-empty queue, no first-round timer, no `awaitLastQueue`
suspension) dispatches the head entry paired with the head handle. -/
theorem trigger_dispatches (env : Nat → FnBeh) (s : St) (fn : Nat)
    (args : List Nat) (h : Nat) (qrest : List (Nat × List Nat))
    (hrest : List Nat)
    (hp : s.paused = false) (hti : s.isTriggering = false)
    (hq : s.queue = (fn, args) :: qrest) (hr : s.returnPromises = h :: hrest)
    (hf : (s.options.timerForFirst && s.isFirst) = false)
    (hg : awaitGate s = none) :
    (trigger env s).dispatched = s.dispatched ++ [(fn, args, h)] := by
  have hre : ∀ g as st, st.isTriggering = true →
      (fun g as st => triggerF env 1 (addCore g as st)) g as st = addCore g as st :=
    fun g as st hst => triggerF_of_isTriggering env 1 (addCore g as st) hst
  have hbody : trigger env s
      = triggerBody env (fun g as st => triggerF env 1 (addCore g as st)) s := rfl
  rw [hbody]
  unfold triggerBody
  split
  · next hcond => rw [hp] at hcond; simp at hcond
  · next _ =>
    split
    · next hcond => rw [hti] at hcond; simp at hcond
    · next _ =>
      split
      · next hcond => rw [hq] at hcond; simp at hcond
      · next _ =>
        dsimp only
        split
        · next hcond =>
            have hx : (s.options.timerForFirst && s.isFirst) = true := hcond
            rw [hf] at hx; simp at hx
        · next _ =>
          split
          · next p heq =>
              have hgx : awaitGate ({ s with isTriggering := true } : St) = none := hg
              rw [hgx] at heq; simp at heq
          · next _ =>
              exact (triggerRestWith_eqs env _
                ({ s with isTriggering := true } : St)
                fn args h qrest hrest hre rfl hq hr).1

/-- Claim C5: whenever a round dispatches, it removes the head entry of the
queue together with the completion handle at the same (head) position and
records their dispatch as a pair; a `loop`-requeued entry is appended at
the tail (with a fresh handle appended at the tail of the handle sequence),
so dispatch order is the FIFO order of the two parallel sequences. -/
theorem c5_fifo_dispatch (env : Nat → FnBeh) (s : St) (fn : Nat)
    (args : List Nat) (h : Nat) (qrest : List (Nat × List Nat))
    (hrest : List Nat)
    (ht : s.isTriggering = true)
    (hq : s.queue = (fn, args) :: qrest)
    (hr : s.returnPromises = h :: hrest) :
    (triggerRest env s).dispatched = s.dispatched ++ [(fn, args, h)] ∧
    (triggerRest env s).queue
      = qrest ++ (if s.options.loop then [(fn, args)] else []) ∧
    (triggerRest env s).returnPromises
      = hrest ++ (if s.options.loop then [s.nextHandle] else []) := by
  have hre : ∀ g as st, st.isTriggering = true →
      (fun g as st => add env g as st) g as st = addCore g as st :=
    fun g as st hst => add_of_isTriggering env g as st hst
  obtain ⟨e1, e2, e3, _, _⟩ :=
    triggerRestWith_eqs env (fun g as st => add env g as st) s fn args h
      qrest hrest hre ht hq hr
  exact ⟨e1, e2, e3⟩

/-- Concrete state for the C5 witness: one queued entry paired with one
handle, mid-round. -/
def st5 : St :=
  { mkQueue 1 defaultOptions with
    isTriggering := true
    queue := [(4, [2])]
    returnPromises := [6]
    externalHandles := [6]
    nextHandle := 7 }

/-- Witness for C5 at a concrete state. -/
theorem c5_fifo_dispatch_witness :
    (triggerRest envA st5).dispatched = st5.dispatched ++ [(4, [2], 6)] ∧
    (triggerRest envA st5).queue
      = [] ++ (if st5.options.loop then [(4, [2])] else []) ∧
    (triggerRest envA st5).returnPromises
      = [] ++ (if st5.options.loop then [st5.nextHandle] else []) :=
  c5_fifo_dispatch envA st5 4 [2] 6 [] [] rfl rfl rfl

/-- Claim C6: under the `loop` option a dispatch first re-appends the same
function and arguments at the tail of the queue, pairing them with a fresh
completion handle (an id not yet in the handle sequence), and only then
invokes the dequeued operation: the invocation runs on the state produced
by the requeue. -/
theorem c6_loop_requeues_before_invoke (env : Nat → FnBeh) (s : St) (fn : Nat)
    (args : List Nat) (qrest : List (Nat × List Nat))
    (hl : s.options.loop = true)
    (ht : s.isTriggering = true)
    (hq : s.queue = (fn, args) :: qrest)
    (hb : ∀ x ∈ s.returnPromises, x < s.nextHandle) :
    triggerRest env s
      = invokeAndFinish env fn args s.returnPromises.head? (shiftAndLoop env s) ∧
    (shiftAndLoop env s).queue = qrest ++ [(fn, args)] ∧
    (shiftAndLoop env s).returnPromises
      = s.returnPromises.tail ++ [s.nextHandle] ∧
    s.nextHandle ∉ s.returnPromises := by
  have hre : ∀ g as st, st.isTriggering = true →
      (fun g as st => add env g as st) g as st = addCore g as st :=
    fun g as st hst => add_of_isTriggering env g as st hst
  have hshift := shiftAndLoopWith_eq (fun g as st => add env g as st) s fn args
    qrest hre ht hq
  refine ⟨?_, ?_, ?_, ?_⟩
  · unfold triggerRest triggerRestWith shiftAndLoop
    rw [hq]
  · show (shiftAndLoopWith (fun g as st => add env g as st) s).queue = _
    rw [hshift]
    simp [hl, addCore]
  · show (shiftAndLoopWith (fun g as st => add env g as st) s).returnPromises = _
    rw [hshift]
    simp [hl, addCore]
  · intro hmem
    exact Nat.lt_irrefl _ (hb _ hmem)

/-- The options set with `loop` enabled. -/
def optsLoop : Options := { defaultOptions with loop := true }

/-- Concrete state for the C6 witness: a loop queue mid-round with one
queued entry. -/
def st6 : St :=
  { mkQueue 1 optsLoop with
    isTriggering := true
    queue := [(0, [])]
    returnPromises := [3]
    externalHandles := [3]
    nextHandle := 4 }

/-- Witness for C6 at a concrete state. -/
theorem c6_loop_requeues_before_invoke_witness :
    triggerRest envA st6
      = invokeAndFinish envA 0 [] st6.returnPromises.head? (shiftAndLoop envA st6) ∧
    (shiftAndLoop envA st6).queue = [] ++ [(0, [])] ∧
    (shiftAndLoop envA st6).returnPromises
      = st6.returnPromises.tail ++ [st6.nextHandle] ∧
    st6.nextHandle ∉ st6.returnPromises :=
  c6_loop_requeues_before_invoke envA st6 0 [] [] rfl rfl rfl (by decide)

/-- Claim C3 (amended): an `add` on an idle (empty queue and handle
sequence, no round in progress), non-paused scheduler with `timerForFirst`
disabled dispatches the added entry within the `add` call itself — provided
the line 122 gate is closed, i.e. `awaitLastQueue` is disabled or
`lastFnResult` is not a promise (in particular on a fresh scheduler). -/
theorem c3_amended (env : Nat → FnBeh) (fn : Nat) (args : List Nat) (s : St)
    (hq : s.queue = []) (hr : s.returnPromises = [])
    (hti : s.isTriggering = false) (hp : s.paused = false)
    (hf : s.options.timerForFirst = false)
    (hg : awaitGate s = none) :
    (step env s (Ev.add fn args)).dispatched
      = s.dispatched ++ [(fn, args, s.nextHandle)] := by
  show (trigger env (addCore fn args
    { s with externalHandles := s.externalHandles ++ [s.nextHandle] })).dispatched = _
  exact trigger_dispatches env
    (addCore fn args { s with externalHandles := s.externalHandles ++ [s.nextHandle] })
    fn args s.nextHandle [] [] hp hti (by simp [addCore, hq])
    (by simp [addCore, hr]) (by simp [addCore, hf]) hg

/-- Witness for the amended C3: on a fresh default scheduler the very first
`add` runs its function synchronously. -/
theorem c3_amended_witness :
    (step envA (mkQueue 2000 defaultOptions) (Ev.add 5 [])).dispatched
      = (mkQueue 2000 defaultOptions).dispatched
        ++ [(5, [], (mkQueue 2000 defaultOptions).nextHandle)] :=
  c3_amended envA 5 [] (mkQueue 2000 defaultOptions) rfl rfl rfl rfl rfl rfl

/-- Claim C7 (amended): `runNext` is exactly `clearLoop` followed by a
trigger-round attempt, and it dispatches the head entry immediately
(regardless of any remaining wait) subject to the round's gating rules —
which include, besides pausing, an empty queue and the `timerForFirst`
first-round timer, the line 122 `awaitLastQueue` gate on an unsettled
previous result. -/
theorem c7_amended (env : Nat → FnBeh) (s : St) (fn : Nat) (args : List Nat)
    (h : Nat) (qrest : List (Nat × List Nat)) (hrest : List Nat)
    (hq : s.queue = (fn, args) :: qrest) (hr : s.returnPromises = h :: hrest)
    (hp : s.paused = false)
    (hf : (s.options.timerForFirst && s.isFirst) = false)
    (hg : awaitGate s = none) :
    runNext env s = runNextSpec env s ∧
    runNext env s = trigger env (clearLoop s) ∧
    (runNext env s).dispatched = s.dispatched ++ [(fn, args, h)] := by
  refine ⟨rfl, rfl, ?_⟩
  show (trigger env (clearLoop s)).dispatched = _
  exact trigger_dispatches env (clearLoop s) fn args h qrest hrest hp rfl hq hr hf hg

/-- Concrete state for the C7 witness: a pending entry, a round marked in
progress and an armed timer, all of which `runNext` bypasses. -/
def st7 : St :=
  { mkQueue 9 defaultOptions with
    isTriggering := true
    queue := [(1, [2])]
    returnPromises := [5]
    externalHandles := [5]
    nextHandle := 6
    currentTimeout := some 0
    timers := [0]
    nextTimer := 1 }

/-- Witness for the amended C7 at a concrete state. -/
theorem c7_amended_witness :
    runNext envA st7 = runNextSpec envA st7 ∧
    runNext envA st7 = trigger envA (clearLoop st7) ∧
    (runNext envA st7).dispatched = st7.dispatched ++ [(1, [2], 5)] :=
  c7_amended envA st7 1 [2] 5 [] [] rfl rfl rfl rfl rfl

/-! ### The parallel-length invariant (claim C9) -/

/-- The queue and the completion-handle sequence have the same length. -/
def LenInv (s : St) : Prop := s.queue.length = s.returnPromises.length

/-- Generic preservation of a state predicate along a fold. -/
theorem foldl_pres {α : Type} (P : St → Prop) (f : St → α → St)
    (hf : ∀ st a, P st → P (f st a)) :
    ∀ (l : List α) (st : St), P st → P (l.foldl f st)
  | [], _, h => h
  | a :: l, st, h => foldl_pres P f hf l (f st a) (hf st a h)

/-- `addCore` pushes on both sequences. -/
theorem lenInv_addCore (fn : Nat) (args : List Nat) (s : St) (h : LenInv s) :
    LenInv (addCore fn args s) := by
  unfold LenInv addCore at *
  simp only [List.length_append, List.length_cons, List.length_nil]
  omega

/-- Lines 131-143 touch neither sequence. -/
theorem lenInv_invokeAndFinish (env : Nat → FnBeh) (fn : Nat) (args : List Nat)
    (hOpt : Option Nat) (s : St) (h : LenInv s) :
    LenInv (invokeAndFinish env fn args hOpt s) := by
  have e := invokeAndFinish_frame env fn args hOpt s
  unfold LenInv
  rw [e.1, e.2.1]
  exact h

/-- Lines 125-129 shift both sequences together (and, under `loop`, push on
both together through the re-add). -/
theorem lenInv_shiftAndLoopWith (reAdd : Nat → List Nat → St → St) (s : St)
    (hre : ∀ g as st, LenInv st → LenInv (reAdd g as st))
    (h : LenInv s) : LenInv (shiftAndLoopWith reAdd s) := by
  unfold shiftAndLoopWith
  split
  · exact h
  · next fn args qrest heq =>
      have h2 : qrest.length + 1 = s.returnPromises.length := by
        unfold LenInv at h
        rw [heq] at h
        simpa using h
      have h1 :
          LenInv ({ s with queue := qrest, returnPromises := s.returnPromises.tail } : St) := by
        show qrest.length = s.returnPromises.tail.length
        rw [List.length_tail]
        omega
      by_cases hl : s.options.loop
      · simpa [hl] using hre fn args _ h1
      · simpa [hl] using h1

/-- The resumed part of a round preserves the parallel lengths. -/
theorem lenInv_triggerRestWith (env : Nat → FnBeh)
    (reAdd : Nat → List Nat → St → St) (s : St)
    (hre : ∀ g as st, LenInv st → LenInv (reAdd g as st))
    (h : LenInv s) : LenInv (triggerRestWith env reAdd s) := by
  unfold triggerRestWith
  split
  · exact h
  · exact lenInv_invokeAndFinish env _ _ _ _
      (lenInv_shiftAndLoopWith reAdd s hre h)

/-- A round body preserves the parallel lengths. -/
theorem lenInv_triggerBody (env : Nat → FnBeh)
    (reAdd : Nat → List Nat → St → St) (s : St)
    (hre : ∀ g as st, LenInv st → LenInv (reAdd g as st))
    (h : LenInv s) : LenInv (triggerBody env reAdd s) := by
  unfold triggerBody
  split
  · exact h
  · split
    · exact h
    · split
      · exact h
      · dsimp only
        split
        · exact h
        · split
          · exact h
          · exact lenInv_triggerRestWith env reAdd _ hre h

/-- A `trigger` call preserves the parallel lengths (any fuel). -/
theorem lenInv_triggerF (env : Nat → FnBeh) :
    ∀ (fuel : Nat) (s : St), LenInv s → LenInv (triggerF env fuel s)
  | 0, _, h => h
  | fuel + 1, s, h =>
      lenInv_triggerBody env _ s
        (fun g as st hst => lenInv_triggerF env fuel _ (lenInv_addCore g as st hst)) h

/-- `trigger` preserves the parallel lengths. -/
theorem lenInv_trigger (env : Nat → FnBeh) (s : St) (h : LenInv s) :
    LenInv (trigger env s) :=
  lenInv_triggerF env 2 s h

/-- `add` preserves the parallel lengths. -/
theorem lenInv_add (env : Nat → FnBeh) (fn : Nat) (args : List Nat) (s : St)
    (h : LenInv s) : LenInv (add env fn args s) :=
  lenInv_trigger env _ (lenInv_addCore fn args s h)

/-- A resumed round preserves the parallel lengths. -/
theorem lenInv_triggerRest (env : Nat → FnBeh) (s : St) (h : LenInv s) :
    LenInv (triggerRest env s) :=
  lenInv_triggerRestWith env _ s (fun g as st hst => lenInv_add env g as st hst) h

/-- A promise settling preserves the parallel lengths. -/
theorem lenInv_promSettle (p : Nat) (out : POut) (s : St) (h : LenInv s) :
    LenInv (promSettle p out s) := by
  unfold promSettle
  split
  · exact h
  · exact h

/-- Running one promise callback preserves the parallel lengths. -/
theorem lenInv_runReaction (env : Nat → FnBeh) (out : POut) (s : St)
    (r : Reaction) (h : LenInv s) : LenInv (runReaction env out s r) := by
  cases r with
  | settleHandle x => exact h
  | armTimer => exact h
  | resumeTrigger => exact lenInv_triggerRest env s h

/-- Delivering a promise's callbacks preserves the parallel lengths. -/
theorem lenInv_deliver (env : Nat → FnBeh) (p : Nat) (s : St) (h : LenInv s) :
    LenInv (deliver env p s) := by
  unfold deliver
  split
  · exact h
  · exact foldl_pres LenInv _
      (fun st r hst => lenInv_runReaction env _ st r hst) _ _ h

/-- A timer firing preserves the parallel lengths. -/
theorem lenInv_timerFire (env : Nat → FnBeh) (tid : Nat) (s : St)
    (h : LenInv s) : LenInv (timerFire env tid s) := by
  unfold timerFire
  split
  · exact lenInv_trigger env _ h
  · exact h

/-- Every event step preserves the parallel lengths. -/
theorem lenInv_step (env : Nat → FnBeh) (s : St) (e : Ev) (h : LenInv s) :
    LenInv (step env s e) := by
  cases e with
  | add fn args => exact lenInv_add env fn args _ h
  | setIntervalTime t => exact lenInv_trigger env _ h
  | clearLoop => exact h
  | runNext => exact lenInv_trigger env _ h
  | pause => exact h
  | unpause => exact lenInv_trigger env _ h
  | timerFire tid => exact lenInv_timerFire env tid s h
  | promSettle p out => exact lenInv_promSettle p out s h
  | deliver p => exact lenInv_deliver env p s h

/-- Claim C9: in every state reachable from a fresh scheduler by any
sequence of public calls, timer fires and promise settlements/deliveries,
the pending-entry queue and the completion-handle sequence have the same
length — `add` pushes on both, a dispatch shifts both, and a loop requeue
pushes on both. -/
theorem c9_parallel_lengths (env : Nat → FnBeh) (t : Nat) (o : Options)
    (es : List Ev) :
    (run env (mkQueue t o) es).queue.length
      = (run env (mkQueue t o) es).returnPromises.length :=
  foldl_pres LenInv (step env) (fun st e hst => lenInv_step env st e hst) es
    (mkQueue t o) rfl

/-! ### Caller-unobservable handles (claim C10) -/

/-- Handle id `x` has already been allocated (it is below the supply) and
was never handed to a caller of the public `add`.  Since `externalHandles`
only ever gains the current value of the supply, such an id can never
become caller-visible. -/
def Unobservable (x : Nat) (s : St) : Prop :=
  x < s.nextHandle ∧ x ∉ s.externalHandles

/-- `addCore` bumps the supply and hands nothing to callers. -/
theorem unob_addCore (x : Nat) (fn : Nat) (args : List Nat) (s : St)
    (h : Unobservable x s) : Unobservable x (addCore fn args s) :=
  ⟨Nat.lt_succ_of_lt h.1, h.2⟩

/-- Lines 131-143 touch neither the supply nor the caller-visible list. -/
theorem unob_invokeAndFinish (x : Nat) (env : Nat → FnBeh) (fn : Nat)
    (args : List Nat) (hOpt : Option Nat) (s : St) (h : Unobservable x s) :
    Unobservable x (invokeAndFinish env fn args hOpt s) := by
  have e := invokeAndFinish_frame env fn args hOpt s
  unfold Unobservable
  rw [e.2.2.1, e.2.2.2.1]
  exact h

/-- Lines 125-129 preserve unobservability. -/
theorem unob_shiftAndLoopWith (x : Nat) (reAdd : Nat → List Nat → St → St)
    (s : St) (hre : ∀ g as st, Unobservable x st → Unobservable x (reAdd g as st))
    (h : Unobservable x s) : Unobservable x (shiftAndLoopWith reAdd s) := by
  unfold shiftAndLoopWith
  split
  · exact h
  · next fn args qrest heq =>
      by_cases hl : s.options.loop
      · simpa [hl] using
          hre fn args { s with queue := qrest, returnPromises := s.returnPromises.tail }
            ⟨h.1, h.2⟩
      · simpa [hl] using h

/-- The resumed part of a round preserves unobservability. -/
theorem unob_triggerRestWith (x : Nat) (env : Nat → FnBeh)
    (reAdd : Nat → List Nat → St → St) (s : St)
    (hre : ∀ g as st, Unobservable x st → Unobservable x (reAdd g as st))
    (h : Unobservable x s) : Unobservable x (triggerRestWith env reAdd s) := by
  unfold triggerRestWith
  split
  · exact h
  · exact unob_invokeAndFinish x env _ _ _ _
      (unob_shiftAndLoopWith x reAdd s hre h)

/-- A round body preserves unobservability. -/
theorem unob_triggerBody (x : Nat) (env : Nat → FnBeh)
    (reAdd : Nat → List Nat → St → St) (s : St)
    (hre : ∀ g as st, Unobservable x st → Unobservable x (reAdd g as st))
    (h : Unobservable x s) : Unobservable x (triggerBody env reAdd s) := by
  unfold triggerBody
  split
  · exact h
  · split
    · exact h
    · split
      · exact h
      · dsimp only
        split
        · exact h
        · split
          · exact h
          · exact unob_triggerRestWith x env reAdd _ hre h

/-- A `trigger` call preserves unobservability (any fuel). -/
theorem unob_triggerF (x : Nat) (env : Nat → FnBeh) :
    ∀ (fuel : Nat) (s : St), Unobservable x s → Unobservable x (triggerF env fuel s)
  | 0, _, h => h
  | fuel + 1, s, h =>
      unob_triggerBody x env _ s
        (fun g as st hst => unob_triggerF x env fuel _ (unob_addCore x g as st hst)) h

/-- `trigger` preserves unobservability. -/
theorem unob_trigger (x : Nat) (env : Nat → FnBeh) (s : St)
    (h : Unobservable x s) : Unobservable x (trigger env s) :=
  unob_triggerF x env 2 s h

/-- The internal `add` (line 129) preserves unobservability: the fresh
handle it creates stays internal. -/
theorem unob_add (x : Nat) (env : Nat → FnBeh) (fn : Nat) (args : List Nat)
    (s : St) (h : Unobservable x s) : Unobservable x (add env fn args s) :=
  unob_trigger x env _ (unob_addCore x fn args s h)

/-- A resumed round preserves unobservability. -/
theorem unob_triggerRest (x : Nat) (env : Nat → FnBeh) (s : St)
    (h : Unobservable x s) : Unobservable x (triggerRest env s) :=
  unob_triggerRestWith x env _ s (fun g as st hst => unob_add x env g as st hst) h

/-- A promise settling preserves unobservability. -/
theorem unob_promSettle (x p : Nat) (out : POut) (s : St)
    (h : Unobservable x s) : Unobservable x (promSettle p out s) := by
  unfold promSettle
  split
  · exact h
  · exact h

/-- Running one promise callback preserves unobservability. -/
theorem unob_runReaction (x : Nat) (env : Nat → FnBeh) (out : POut) (s : St)
    (r : Reaction) (h : Unobservable x s) :
    Unobservable x (runReaction env out s r) := by
  cases r with
  | settleHandle hh => exact h
  | armTimer => exact h
  | resumeTrigger => exact unob_triggerRest x env s h

/-- Delivering a promise's callbacks preserves unobservability. -/
theorem unob_deliver (x : Nat) (env : Nat → FnBeh) (p : Nat) (s : St)
    (h : Unobservable x s) : Unobservable x (deliver env p s) := by
  unfold deliver
  split
  · exact h
  · exact foldl_pres (Unobservable x) _
      (fun st r hst => unob_runReaction x env _ st r hst) _ _ h

/-- A timer firing preserves unobservability. -/
theorem unob_timerFire (x : Nat) (env : Nat → FnBeh) (tid : Nat) (s : St)
    (h : Unobservable x s) : Unobservable x (timerFire env tid s) := by
  unfold timerFire
  split
  · exact unob_trigger x env _ h
  · exact h

/-- Every event step preserves unobservability: the public `add` only hands
out the current (strictly larger) value of the handle supply. -/
theorem unob_step (x : Nat) (env : Nat → FnBeh) (s : St) (e : Ev)
    (h : Unobservable x s) : Unobservable x (step env s e) := by
  cases e with
  | add fn args =>
      refine unob_add x env fn args _ ⟨h.1, ?_⟩
      show x ∉ s.externalHandles ++ [s.nextHandle]
      simp only [List.mem_append, List.mem_singleton]
      rintro (hmem | heq)
      · exact h.2 hmem
      · exact Nat.lt_irrefl _ (heq ▸ h.1)
  | setIntervalTime t => exact unob_trigger x env _ h
  | clearLoop => exact h
  | runNext => exact unob_trigger x env _ h
  | pause => exact h
  | unpause => exact unob_trigger x env _ h
  | timerFire tid => exact unob_timerFire x env tid s h
  | promSettle p out => exact unob_promSettle x p out s h
  | deliver p => exact unob_deliver x env p s h

/-- Claim C10: under the `loop` option, the handle created by the dispatch's
requeue is fresh, is appended to the internal handle sequence but never to
the caller-visible handles (the engine discards the return value of the
line 129 `this.add` call), and it remains invisible to callers after any
further sequence of events — so every iteration after the one observed
through the caller's original handle settles a handle no caller holds. -/
theorem c10_loop_handle_unobservable (env : Nat → FnBeh) (s : St) (fn : Nat)
    (args : List Nat) (qrest : List (Nat × List Nat)) (es : List Ev)
    (hl : s.options.loop = true)
    (ht : s.isTriggering = true)
    (hq : s.queue = (fn, args) :: qrest)
    (hx : s.nextHandle ∉ s.externalHandles) :
    (triggerRest env s).returnPromises
      = s.returnPromises.tail ++ [s.nextHandle] ∧
    (triggerRest env s).externalHandles = s.externalHandles ∧
    s.nextHandle ∉ (run env (triggerRest env s) es).externalHandles := by
  have hre : ∀ g as st, st.isTriggering = true →
      (fun g as st => add env g as st) g as st = addCore g as st :=
    fun g as st hst => add_of_isTriggering env g as st hst
  have hshift := shiftAndLoopWith_eq (fun g as st => add env g as st) s fn args
    qrest hre ht hq
  have hrest : triggerRest env s
      = invokeAndFinish env fn args s.returnPromises.head?
          (shiftAndLoopWith (fun g as st => add env g as st) s) := by
    unfold triggerRest triggerRestWith
    rw [hq]
  have hrp : (triggerRest env s).returnPromises
      = s.returnPromises.tail ++ [s.nextHandle] := by
    rw [hrest, invokeAndFinish_returnPromises, hshift]
    simp [hl, addCore]
  have hext : (triggerRest env s).externalHandles = s.externalHandles := by
    rw [hrest, invokeAndFinish_externalHandles, hshift]
    simp [hl, addCore]
  have hnh : (triggerRest env s).nextHandle = s.nextHandle + 1 := by
    rw [hrest, invokeAndFinish_nextHandle, hshift]
    simp [hl, addCore]
  refine ⟨hrp, hext, ?_⟩
  have hstart : Unobservable s.nextHandle (triggerRest env s) := by
    constructor
    · rw [hnh]; exact Nat.lt_succ_self _
    · rw [hext]; exact hx
  exact (foldl_pres (Unobservable s.nextHandle) (step env)
    (fun st e hst => unob_step s.nextHandle env st e hst) es _ hstart).2

/-- Concrete state for the C10 witness: a loop queue mid-round. -/
def st10 : St :=
  { mkQueue 1 optsLoop with
    isTriggering := true
    queue := [(2, [7])]
    returnPromises := [0]
    externalHandles := [0]
    nextHandle := 1 }

/-- Witness for C10 at a concrete state with a subsequent event. -/
theorem c10_loop_handle_unobservable_witness :
    (triggerRest envA st10).returnPromises
      = st10.returnPromises.tail ++ [st10.nextHandle] ∧
    (triggerRest envA st10).externalHandles = st10.externalHandles ∧
    st10.nextHandle ∉ (run envA (triggerRest envA st10)
      [Ev.add 8 [], Ev.runNext]).externalHandles :=
  c10_loop_handle_unobservable envA st10 2 [7] [] [Ev.add 8 [], Ev.runNext]
    rfl rfl rfl (by decide)

/-! ### The paused-and-quiescent invariant (claim C4, amended) -/

/-- The scheduler is paused with no armed timer, no pending promise
callback (so no suspended round and no deferred timer arming), and
`isFirst` forced — the state `pause()` produces on a quiescent engine. -/
def PausedIdle (s : St) : Prop :=
  s.paused = true ∧ s.isFirst = true ∧ s.timers = [] ∧ s.reactions = []

/-- `clearLoop` keeps a paused-quiescent state paused-quiescent and changes
neither the dispatch history nor the queue. -/
theorem pausedIdle_clearLoop (s : St) (h : PausedIdle s) :
    PausedIdle (clearLoop s) ∧ (clearLoop s).dispatched = s.dispatched ∧
    (clearLoop s).queue = s.queue := by
  refine ⟨⟨h.1, h.2.1, ?_, h.2.2.2⟩, rfl, rfl⟩
  show (match s.currentTimeout with
        | some t => s.timers.filter (fun x => x != t)
        | none => s.timers) = []
  cases s.currentTimeout <;> simp [h.2.2.1]

/-- While paused and quiescent, every event other than `unpause` keeps the
state paused and quiescent, dispatches nothing, and at most appends to the
queue (an `add` enqueues without running anything). -/
theorem pausedIdle_step (env : Nat → FnBeh) (s : St) (e : Ev)
    (hp : PausedIdle s) (he : e ≠ Ev.unpause) :
    PausedIdle (step env s e) ∧ (step env s e).dispatched = s.dispatched ∧
    ∃ t, (step env s e).queue = s.queue ++ t := by
  cases e with
  | add fn args =>
      have hstep : step env s (Ev.add fn args)
          = addCore fn args
              { s with externalHandles := s.externalHandles ++ [s.nextHandle] } :=
        triggerF_of_paused env 2 _ hp.1
      rw [hstep]
      exact ⟨⟨hp.1, hp.2.1, hp.2.2.1, hp.2.2.2⟩, rfl, ⟨[(fn, args)], rfl⟩⟩
  | setIntervalTime t =>
      have hcl := pausedIdle_clearLoop ({ s with intervalTime := t } : St)
        ⟨hp.1, hp.2.1, hp.2.2.1, hp.2.2.2⟩
      have hstep : step env s (Ev.setIntervalTime t)
          = clearLoop ({ s with intervalTime := t } : St) :=
        triggerF_of_paused env 2 _ hcl.1.1
      rw [hstep]
      exact ⟨hcl.1, hcl.2.1, ⟨[], (List.append_nil _).symm⟩⟩
  | clearLoop =>
      have hcl := pausedIdle_clearLoop s hp
      exact ⟨hcl.1, hcl.2.1, ⟨[], (List.append_nil _).symm⟩⟩
  | runNext =>
      have hcl := pausedIdle_clearLoop s hp
      have hstep : step env s Ev.runNext = clearLoop s :=
        triggerF_of_paused env 2 _ hcl.1.1
      rw [hstep]
      exact ⟨hcl.1, hcl.2.1, ⟨[], (List.append_nil _).symm⟩⟩
  | pause =>
      have hcl := pausedIdle_clearLoop ({ s with paused := true, isFirst := true } : St)
        ⟨rfl, rfl, hp.2.2.1, hp.2.2.2⟩
      exact ⟨hcl.1, hcl.2.1, ⟨[], (List.append_nil _).symm⟩⟩
  | unpause => exact absurd rfl he
  | timerFire tid =>
      have hstep : step env s (Ev.timerFire tid) = s := by
        show timerFire env tid s = s
        unfold timerFire
        rw [hp.2.2.1]
        simp
      rw [hstep]
      exact ⟨hp, rfl, ⟨[], (List.append_nil _).symm⟩⟩
  | promSettle p out =>
      show PausedIdle (promSettle p out s) ∧
        (promSettle p out s).dispatched = s.dispatched ∧
        ∃ t, (promSettle p out s).queue = s.queue ++ t
      unfold promSettle
      split
      · exact ⟨hp, rfl, ⟨[], (List.append_nil _).symm⟩⟩
      · exact ⟨⟨hp.1, hp.2.1, hp.2.2.1, hp.2.2.2⟩, rfl, ⟨[], (List.append_nil _).symm⟩⟩
  | deliver p =>
      show PausedIdle (deliver env p s) ∧
        (deliver env p s).dispatched = s.dispatched ∧
        ∃ t, (deliver env p s).queue = s.queue ++ t
      unfold deliver
      split
      · exact ⟨hp, rfl, ⟨[], (List.append_nil _).symm⟩⟩
      · rw [hp.2.2.2]
        simp only [List.filter_nil, List.map_nil, List.foldl_nil]
        exact ⟨⟨hp.1, hp.2.1, hp.2.2.1, rfl⟩, trivial, ⟨[], (List.append_nil _).symm⟩⟩

/-- While paused and quiescent, any sequence of events avoiding `unpause`
dispatches nothing, keeps the state paused and quiescent, and at most
appends entries to the queue. -/
theorem pausedIdle_run (env : Nat → FnBeh) (s : St) (es : List Ev)
    (hp : PausedIdle s) (hes : ∀ e ∈ es, e ≠ Ev.unpause) :
    PausedIdle (run env s es) ∧ (run env s es).dispatched = s.dispatched ∧
    ∃ t, (run env s es).queue = s.queue ++ t := by
  induction es generalizing s with
  | nil => exact ⟨hp, rfl, ⟨[], (List.append_nil _).symm⟩⟩
  | cons e es ih =>
      have h1 := pausedIdle_step env s e hp (hes e (by simp))
      have h2 := ih (step env s e) h1.1 (fun e' he' => hes e' (by simp [he']))
      refine ⟨h2.1, h2.2.1.trans h1.2.1, ?_⟩
      obtain ⟨t1, ht1⟩ := h1.2.2
      obtain ⟨t2, ht2⟩ := h2.2.2
      exact ⟨t1 ++ t2, by rw [show run env s (e :: es) = run env (step env s e) es from rfl,
        ht2, ht1, List.append_assoc]⟩

/-- Claim C4 (amended): `pause()` leaves every queued entry queued, sets
`paused` and `isFirst`, and cancels the armed timer; and when it is called
on a quiescent engine (no pending promise callback, i.e. no round suspended
on `awaitLastQueue` and no deferred `startTimer = 'after'` arming, and no
armed timer besides the one `_currentTimeout` refers to), then until
`unpause()` is called no queued entry is dispatched, no timer is armed and
`isFirst` stays `true`, whatever other events occur. -/
theorem c4_amended (env : Nat → FnBeh) (s : St) (es : List Ev)
    (hr : s.reactions = [])
    (htm : ∀ u ∈ s.timers, s.currentTimeout = some u)
    (hes : ∀ e ∈ es, e ≠ Ev.unpause) :
    (step env s Ev.pause).queue = s.queue ∧
    PausedIdle (step env s Ev.pause) ∧
    PausedIdle (run env (step env s Ev.pause) es) ∧
    (run env (step env s Ev.pause) es).dispatched
      = (step env s Ev.pause).dispatched ∧
    ∃ t, (run env (step env s Ev.pause) es).queue
      = (step env s Ev.pause).queue ++ t := by
  have htnil : PausedIdle (step env s Ev.pause) := by
    refine ⟨rfl, rfl, ?_, hr⟩
    show (match s.currentTimeout with
          | some u => s.timers.filter (fun x => x != u)
          | none => s.timers) = []
    cases hc : s.currentTimeout with
    | none =>
        cases hts : s.timers with
        | nil => rfl
        | cons u l =>
            have hx := htm u (by rw [hts]; simp)
            rw [hc] at hx
            cases hx
    | some u =>
        rw [List.filter_eq_nil_iff]
        intro x hx
        have hxu := htm x hx
        rw [hc] at hxu
        injection hxu with hxu
        simp [hxu]
  have hrun := pausedIdle_run env (step env s Ev.pause) es htnil hes
  exact ⟨rfl, htnil, hrun.1, hrun.2.1, hrun.2.2⟩

/-- Witness for the amended C4: pausing a fresh default scheduler, then
adding an entry, dispatches nothing and keeps the state paused-quiescent. -/
theorem c4_amended_witness :
    (step envA (mkQueue 2000 defaultOptions) Ev.pause).queue
      = (mkQueue 2000 defaultOptions).queue ∧
    PausedIdle (step envA (mkQueue 2000 defaultOptions) Ev.pause) ∧
    PausedIdle (run envA (step envA (mkQueue 2000 defaultOptions) Ev.pause)
      [Ev.add 3 []]) ∧
    (run envA (step envA (mkQueue 2000 defaultOptions) Ev.pause)
        [Ev.add 3 []]).dispatched
      = (step envA (mkQueue 2000 defaultOptions) Ev.pause).dispatched ∧
    ∃ t, (run envA (step envA (mkQueue 2000 defaultOptions) Ev.pause)
        [Ev.add 3 []]).queue
      = (step envA (mkQueue 2000 defaultOptions) Ev.pause).queue ++ t :=
  c4_amended envA (mkQueue 2000 defaultOptions) [Ev.add 3 []] rfl
    (by simp [mkQueue]) (by decide)

end IntervalQueue
